import Mathlib

/-!
Verification of the kitty data-model and mutation engine
(`kitty/model/low_level/field.py`, `kitty/model/low_level/encoder.py`,
`kitty/fuzzers/base.py`) against its natural-language specification.

Modelling conventions:
* A `bitstring.Bits` value is a `List Bool`, most significant bit first
  (the order in which `bitstring` concatenates and slices).
* A Python 2 byte string (`str`) is a `List Nat`, one entry per byte.
* Python integers are `Int` (arbitrary precision, two's complement bitwise
  semantics, which `Int.xor` of Mathlib implements).
* Stateful field objects become explicit state records; methods become
  functions from state to (result, state).
-/

namespace Kitty

/-- A `bitstring.Bits` value: a bit sequence, most significant bit first. -/
abbrev Bits := List Bool

/-- A Python 2 byte string: one `Nat` (0..255) per byte. -/
abbrev PyStr := List Nat

/-- Byte value of an ASCII Lean string, used to transcribe the Python string
literals of the mutation libraries (all transcribed literals are ASCII, so
code points equal bytes). -/
def asc (s : String) : PyStr :=
  s.data.map (fun c => c.toNat)

/-- The 8 bits of one byte, most significant first (`bitstring.Bits(bytes=...)`
layout). -/
def byteToBits (b : Nat) : Bits :=
  (List.range 8).map (fun i => b.testBit (7 - i))

/-- `Bits(bytes=value)`: the bits of a byte string, in order. -/
def strToBits (s : PyStr) : Bits :=
  (s.map byteToBits).flatten

/-- `Bits('uint:w=v')`: the unsigned big-endian `w`-bit encoding of `v`
(`BitFieldBinEncoder('')` on an unsigned field; `v` must satisfy `v < 2^w`
for the python encoder not to raise, all uses below stay in range). -/
def encodeUintBE (w v : Nat) : Bits :=
  (List.range w).map (fun i => v.testBit (w - 1 - i))

/-- `BitField._encode_value` for an unsigned field with `ENC_INT_DEFAULT`:
`self._encoder.encode(value, self._length, self._signed)`. -/
def bitFieldEncode (length : Nat) (v : Int) : Bits :=
  encodeUintBE length v.toNat

/-! ### `BaseField` mutation protocol

`BaseField` keeps `_current_index` (an `Int`, `-1` when default) and
`_num_mutations` (a `Nat`).  `num_mutations()` returns `0` when the field is
not fuzzable. -/

/-- `BaseField.num_mutations`: `self._num_mutations if self._fuzzable else 0`. -/
def numMutationsOf (numMut : Nat) (fuzzable : Bool) : Nat :=
  if fuzzable then numMut else 0

/-- `BaseField._exhausted`: `self._current_index >= self.num_mutations() - 1`
(computed over Python integers, hence over `Int`). -/
def exhausted (n : Nat) (idx : Int) : Bool :=
  idx ≥ (n : Int) - 1

/-- Index dynamics of `BaseField.mutate`: return `False` when exhausted,
otherwise increment `_current_index` and return `True` (the `_mutate` value
update is modelled separately where it matters). -/
def mutateStep (n : Nat) (idx : Int) : Bool × Int :=
  if exhausted n idx then (false, idx) else (true, idx + 1)

/-- `_current_index` after `k` calls to `mutate()` starting from `reset`
(`_current_index = -1`). -/
def mutateRun (n : Nat) : Nat → Int
  | 0 => -1
  | k + 1 => (mutateStep n (mutateRun n k)).2

/-- Return value of the `(k+1)`-th call to `mutate()` starting from `reset`. -/
def mutateResult (n : Nat) (k : Nat) : Bool :=
  (mutateStep n (mutateRun n k)).1

/-! ### `_LibraryField` state and operations

A library field keeps `_current_index`, `_current_value` and
`_current_rendered`.  After `_init`/`_filter_lib` the accessible mutations form
a virtual list (`_MultiListAccessor` with its skip-set applied); the model
works with that resulting list directly, and `num_mutations` is its length. -/

/-- Mutable state of a field: `_current_index`, `_current_value`,
`_current_rendered`. -/
structure LibState (α : Type) where
  currentIndex : Int
  currentValue : α
  currentRendered : Bits
deriving DecidableEq

/-- `BaseField.reset`: `_current_index = -1`, current value and rendering
restored to the defaults (`_default_rendered` is the encoded default). -/
def fieldReset (enc : α → Bits) (dflt : α) : LibState α :=
  ⟨-1, dflt, enc dflt⟩

/-- `BaseField.render`: when not in default form (`_current_index ≠ -1`),
re-encode `_current_value` into `_current_rendered`; return
`_current_rendered`. -/
def fieldRender (enc : α → Bits) (s : LibState α) : Bits × LibState α :=
  if s.currentIndex = -1 then (s.currentRendered, s)
  else
    let r := enc s.currentValue
    (r, { s with currentRendered := r })

/-- `BaseField.mutate` specialised to `_LibraryField._mutate`: when not
exhausted, increment `_current_index` and set `_current_value` to
`self._lib.get(self._current_index)` (in reachable states the index is always
in range, so the `getD` default is never used). -/
def libMutate (lib : List α) (s : LibState α) : Bool × LibState α :=
  if exhausted lib.length s.currentIndex then (false, s)
  else
    let idx := s.currentIndex + 1
    (true, { s with currentIndex := idx, currentValue := lib.getD idx.toNat s.currentValue })

/-- State after `k` calls to `mutate()` on a library field. -/
def libMutateN (lib : List α) : Nat → LibState α → LibState α
  | 0, s => s
  | k + 1, s => (libMutate lib (libMutateN lib k s)).2

/-- `_LibraryField.skip`: when not exhausted, advance `_current_index` by
`min(count, _last_index() - _current_index)` in O(1); `_current_value` is not
touched.  Returns the number of cases skipped. -/
def libSkip (lib : List α) (count : Nat) (s : LibState α) : Nat × LibState α :=
  if exhausted lib.length s.currentIndex then (0, s)
  else
    let skipped : Int := min (count : Int) ((lib.length : Int) - 1 - s.currentIndex)
    (skipped.toNat, { s with currentIndex := s.currentIndex + skipped })

/-! ### `Dynamic` fields -/

/-- XOR of two bitstrings (`bitstring` raises unless the lengths agree; the
model truncates to the shorter operand and is only used at equal lengths). -/
def bitsXor (a b : Bits) : Bits :=
  a.zipWith xor b

/-- `Bits(uint=1 << i, length=w)`: the one-hot mask XORed into a mutating
`Dynamic` field's rendering. -/
def oneHotBits (w i : Nat) : Bits :=
  encodeUintBE w (2 ^ i)

/-- State of a `Dynamic` field relevant to `render`: `_current_index` and
`_current_rendered`. -/
structure DynState where
  currentIndex : Int
  currentRendered : Bits
deriving DecidableEq

/-- `Dynamic.render`: when mutating, XOR `_current_rendered` in place with
`Bits(uint=1 << self._current_index, length=self._length * 8)` and return it;
otherwise return `_current_rendered` unchanged. -/
def dynRender (length : Nat) (s : DynState) : Bits × DynState :=
  if s.currentIndex ≠ -1 then
    let r := bitsXor s.currentRendered (oneHotBits (length * 8) s.currentIndex.toNat)
    (r, { s with currentRendered := r })
  else (s.currentRendered, s)

/-! ### Encoders (`encoder.py`) -/

/-- `ByteAlignedBitsEncoder.encode`: `remainder = len(value) % 8;
if remainder: value += Bits(remainder)` — `Bits(n)` is `n` zero bits, so the
code appends `remainder` zero bits (not `8 - remainder`). -/
def byteAlignedEncode (value : Bits) : Bits :=
  let remainder := value.length % 8
  if remainder ≠ 0 then value ++ List.replicate remainder false else value

/-! ### `_filter_lib` (duplicate / out-of-range suppression)

`BitField._filter_lib` walks the virtual index `i` downwards from
`size - 1` to `0`, reading `self._lib.get(i)` and adding `i` to the
accessor's skip-set when the value was already seen at a higher index or is
out of range.  While the walk is at index `i` every index in the skip-set is
`> i`, so `get(i)` is exactly the `i`-th element of the concatenated
underlying lists, and after the walk `get(k)` returns the `k`-th non-skipped
underlying element in ascending order.  The recursion below mirrors this:
the recursive call handles all higher indices (the list tail) first, and the
head is kept iff it is in range and its value was not kept at a higher
index (the code's `vals` accumulator holds exactly the kept values). -/

/-- The virtual mutation list that `_MultiListAccessor` exposes after
`_filter_lib` ran with membership predicate `inRange`
(`BitField._filter_lib` tests `vals` membership first, then range; both
orders skip the same set of indices since `vals` only ever holds in-range
values). -/
def filterLib [DecidableEq α] (inRange : α → Bool) : List α → List α
  | [] => []
  | x :: rest =>
    let kept := filterLib inRange rest
    if inRange x = true ∧ x ∉ kept then x :: kept else kept

/-! ### `String` / `Group` mutation libraries -/

/-- Python string repetition `s * n`. -/
def pyRepeat (s : PyStr) (n : Nat) : PyStr :=
  (List.replicate n s).flatten

/-- `gen_power_list(val, min_power, max_power)`:
`[val * (2 ** i) for i in range(min_power, max_power + 1)]`. -/
def genPowerList (val : PyStr) (minPower maxPower : Nat) : List PyStr :=
  (List.range (maxPower + 1 - minPower)).map (fun i => pyRepeat val (2 ^ (minPower + i)))

/-- `String._get_local_lib`: powers (2, 10, 100) of the default, each also
with a `\xfe` suffix, then NUL-prefixed and NUL-suffixed variants. -/
def stringLocalLib (dflt : PyStr) : List PyStr :=
  [pyRepeat dflt 2, pyRepeat dflt 2 ++ [0xfe],
   pyRepeat dflt 10, pyRepeat dflt 10 ++ [0xfe],
   pyRepeat dflt 100, pyRepeat dflt 100 ++ [0xfe],
   [0x00] ++ dflt, dflt ++ [0x00]]

/-- `String._get_class_lib`: the shared class library, in source order.
`fileStrings` stands for `_add_strings_from_file('./kitty_strings.txt')`,
which is `[]` when the optional file is absent (the default environment). -/
def stringClassLib (fileStrings : List PyStr) : List PyStr :=
  [([] : PyStr)] ++
  (genPowerList (asc "%s") 0 10 ++ genPowerList (asc "%%s") 0 10 ++
   genPowerList (asc "\"%s\"") 0 10 ++ genPowerList (asc "%n") 0 10 ++
   genPowerList (asc "%%n") 0 10 ++ genPowerList (asc "\"%n\"") 0 10 ++
   genPowerList (asc "\r\n") 0 10 ++ genPowerList (asc "\n") 0 10) ++
  (genPowerList [0x00] 0 13 ++ genPowerList [0xde, 0xad, 0xbe, 0xef] 0 13) ++
  [asc "|touch /tmp/KITTY",
   asc ";touch /tmp/KITTY;",
   asc ";ls>/tmp/KITTY",
   asc "\";ls>/tmp/KITTY;ls>\"/dev/null\"",
   [39] ++ asc ";ls>/tmp/KITTY;ls>" ++ [39] ++ asc "/dev/null" ++ [39],
   asc "|notepad",
   asc ";notepad;",
   asc "\nnotepad\n",
   asc "1;SELECT%20*",
   [39] ++ asc "sqlattempt1",
   asc "(sqlattempt2)",
   asc "OR%201=1",
   asc "/.:/" ++ pyRepeat (asc "A") 5000 ++ [0x00, 0x00],
   asc "/.../" ++ pyRepeat (asc "A") 5000 ++ [0x00, 0x00],
   asc "/.../.../.../.../.../.../.../.../.../.../",
   asc "/../../../../../../../../../../../../etc/passwd",
   asc "/../../../../../../../../../../../../boot.ini",
   asc "..:..:..:..:..:..:..:..:..:..:..:..:..:",
   asc "\\\\*",
   asc "\\\\?\\"] ++
  genPowerList (asc "/\\") 0 9 ++
  genPowerList (asc "/.") 0 9 ++
  [asc "!@#$%%^#$%#$@#$%$$@#$%^^**(()",
   asc "%01%02%03%04%0a%0d%0aADSF",
   asc "%01%02%03@%04%0a%0d%0aADSF",
   asc "/%00/",
   asc "%00/",
   asc "%00",
   asc "%u0000",
   [0x25, 0xfe, 0xf0, 0x25, 0x00, 0xff]] ++
  genPowerList [0x25, 0xfe, 0xf0, 0x25, 0x01, 0xff] 0 5 ++
  fileStrings

/-- The virtual mutation list of a `String` field with `max_size=None`:
local library followed by class library; `String._filter_lib` only removes
entries when `max_size` is set, so no index is skipped here. -/
def stringLib (dflt : PyStr) (fileStrings : List PyStr) : List PyStr :=
  stringLocalLib dflt ++ stringClassLib fileStrings

/-- The virtual mutation list of a `Group` field: `_get_local_lib` returns a
copy of the provided values, the class library is empty and nothing is
filtered. -/
def groupLib (values : List PyStr) : List PyStr :=
  values ++ []

/-! ### `BitField` mutation library -/

/-- `BitField._get_local_lib`: flip each bit of the default
(`self._default_value ^ (1 << i)` for `i in range(self._length)`); Python's
infinite two's-complement XOR is `Int.xor`. -/
def bitFieldLocalLib (dflt : Int) (length : Nat) : List Int :=
  (List.range length).map (fun i => Int.xor dflt (2 ^ i))

/-- `BitField._get_class_lib`: for `i in range(5)` probe `min_value + i`,
`max_value - i` and, for each quarter `s in 1..3`,
`max_value - (max_min_diff / 4) * s ± i`; then off-by-`i` around the default
for `i in 1..4` (`/` is Python 2 floor division, `Int.fdiv`).  The values
read from `kitty_integers.txt` are computed by `_add_ints_from_file` but its
return value is discarded, so they never enter the library. -/
def bitFieldClassLib (dflt minV maxV diff : Int) : List Int :=
  ((List.range 5).map (fun i0 =>
    let i : Int := i0
    [minV + i, maxV - i] ++
    ((List.range 3).map (fun s0 =>
      let s : Int := s0 + 1
      [maxV - diff.fdiv 4 * s + i, maxV - diff.fdiv 4 * s - i])).flatten)).flatten ++
  ((List.range 4).map (fun j =>
    let i : Int := j + 1
    [dflt + i, dflt - i])).flatten

/-- The in-range test of `BitField._filter_lib`
(`(res < self._min_value) or (res > self._max_value)` skips the entry). -/
def bitFieldInRange (minV maxV v : Int) : Bool :=
  decide (minV ≤ v ∧ v ≤ maxV)

/-- The virtual mutation list of a `BitField` after `_init` and
`_filter_lib`: local library, then class library, with duplicates (keeping
the occurrence at the highest index) and out-of-range values removed.
Mutation `i` sets `_current_value` to entry `i` of this list (`_mutate`
re-evaluates the stored closure, which depends only on the constructor
parameters, so it yields the value that was checked during filtering). -/
def bitFieldValues (dflt : Int) (length : Nat) (minV maxV diff : Int) : List Int :=
  filterLib (bitFieldInRange minV maxV)
    (bitFieldLocalLib dflt length ++ bitFieldClassLib dflt minV maxV diff)

/-- `BitField._calc_bounds`: resolve `(min_value, max_value, max_min_diff)`
from length, signedness and the optional explicit bounds; `none` models the
`KittyException` raised on invalid parameters.  `~(max_possible >> 1)` is
`-(max_possible / 2) - 1`. -/
def calcBounds (value : Int) (length : Nat) (signed : Bool)
    (minv maxv : Option Int) : Option (Int × Int × Int) :=
  if length = 0 then none
  else
    let maxPossible : Int := 2 ^ length - 1
    let minBase : Int := if signed then -(maxPossible / 2) - 1 else 0
    let maxBase : Int := maxPossible + minBase
    match
      (match maxv with
       | some mv => if mv > maxBase then none else some (minBase, mv)
       | none => some (minBase, maxBase)) with
    | none => none
    | some (mn, mx) =>
      match
        (match minv with
         | some mv => if mv < mn then none else some (mv, mx)
         | none => some (mn, mx)) with
      | none => none
      | some (mn2, mx2) =>
        if mn2 > mx2 then none
        else if value < mn2 ∨ value > mx2 then none
        else some (mn2, mx2, maxPossible)

/-! ### Calculated fields -/

/-- Value of a byte-aligned bit sequence as bytes (used after the alignment
check, where the length is a multiple of 8). -/
def bitsToBytes : Bits → PyStr
  | b0 :: b1 :: b2 :: b3 :: b4 :: b5 :: b6 :: b7 :: rest =>
    ((List.range 8).foldl (fun acc i =>
      2 * acc + (if [b0, b1, b2, b3, b4, b5, b6, b7].getD i false then 1 else 0)) 0)
      :: bitsToBytes rest
  | _ => []

/-- Error raised by `CalculatedStr._render`. -/
inductive CalcStrError
  | notByteAligned
deriving DecidableEq

/-- Truth of `Except` being an error. -/
def isError : Except ε α → Bool
  | .error _ => true
  | .ok _ => false

/-- `CalculatedStr._render` as reached from `Calculated.render` with a fresh
render context (the dependency resolves and does not enclose the field, so
`self in ctx` is false and `_rendered_field` is the dependency's rendering):
raise `KittyException('Hashed data should be byte aligned')` when the
dependency's rendered bit-length is not a multiple of 8, otherwise set the
field's own current value to `func` of the dependency's bytes. -/
def calculatedStrRender (func : PyStr → PyStr) (renderedField : Bits) :
    Except CalcStrError Bits :=
  if renderedField.length % 8 ≠ 0 then .error .notByteAligned
  else .ok (strToBits (func (bitsToBytes renderedField)))

/-- `CalculatedInt._render` in the non-mutating case (`is_default`-less
calculated fields with `fuzzable=False` never enter the `_mutating` branch):
saturate the calculated value into the backing `BitField`'s
`[min_value, max_value]` (`min` with the max first, then `max` with the min)
and render that unsigned `BitField`. -/
def calculatedIntRender (minV maxV : Int) (length : Nat) (calculatedValue : Int) : Bits :=
  bitFieldEncode length (max (min calculatedValue maxV) minV)

/-- `Size.render` for a non-fuzzable `Size` over a resolvable, non-enclosing
dependency whose rendering is `depRendered`: the default
`calc_func = lambda x: len(x) / 8` (Python 2 floor division) feeds
`CalculatedInt._render`; the backing field is `BitField(value=0,
length=length)`, unsigned, so its bounds are `0` and `2^length - 1`. -/
def sizeRender (depRendered : Bits) (length : Nat) : Bits :=
  calculatedIntRender 0 (2 ^ length - 1) length ((depRendered.length : Int).fdiv 8)

/-! ### Fuzzer session start (`fuzzers/base.py`) -/

/-- The part of `SessionInfo` checked by `_check_session_validity`. -/
structure SessionInfo where
  kittyVersion : Nat
  dataModelHash : Nat
deriving DecidableEq

/-- Errors `_check_session_validity` can raise. -/
inductive FuzzError
  | versionMismatch
  | hashMismatch
deriving DecidableEq

/-- Interactions with the target object, in order of occurrence. -/
inductive TargetEvent
  | setup
  | preTest (index : Nat)
  | transmit
  | postTest (index : Nat)
  | teardown
deriving DecidableEq

/-- `BaseFuzzer._check_session_validity`: compare the stored kitty version,
then the stored data-model hash, raising on the first mismatch. -/
def checkSessionValidity (currentVersion modelHash : Nat) (si : SessionInfo) :
    Option FuzzError :=
  if currentVersion ≠ si.kittyVersion then some FuzzError.versionMismatch
  else if modelHash ≠ si.dataModelHash then some FuzzError.hashMismatch
  else none

/-- `BaseFuzzer.start`, abstracted over the target interactions of the
subclass loop: when a stored session was loaded, `_check_session_validity`
runs before the `try` block containing `target.setup()`, so a mismatch
propagates with no target event emitted; otherwise the stored hash/version
are initialised from the model and the session proceeds — `target.setup()`
is the first target interaction, followed by the environment test and the
fuzzing loop (`restEvents`). -/
def fuzzerStart (loaded : Bool) (si : SessionInfo) (currentVersion modelHash : Nat)
    (restEvents : List TargetEvent) : Except FuzzError (List TargetEvent) :=
  if loaded then
    match checkSessionValidity currentVersion modelHash si with
    | some e => .error e
    | none => .ok (TargetEvent.setup :: restEvents)
  else .ok (TargetEvent.setup :: restEvents)

end Kitty

namespace Kitty

theorem mutateRun_eq (n : Nat) : ∀ k : Nat, mutateRun n k = (min k n : Int) - 1 := by
  intro k
  induction k with
  | zero => simp [mutateRun]
  | succ k ih =>
    rw [mutateRun, ih]
    unfold mutateStep exhausted
    split
    · next h =>
      simp only [ge_iff_le, decide_eq_true_eq] at h
      push_cast
      omega
    · next h =>
      simp only [ge_iff_le, decide_eq_true_eq] at h
      dsimp only
      push_cast
      omega

theorem mutateResult_eq (n k : Nat) : mutateResult n k = decide (k < n) := by
  unfold mutateResult mutateStep
  rw [mutateRun_eq]
  by_cases h : k < n
  · have : ¬ exhausted n ((min k n : Int) - 1) = true := by
      unfold exhausted
      simp only [ge_iff_le, decide_eq_true_eq]
      omega
    simp [this, h]
  · have : exhausted n ((min k n : Int) - 1) = true := by
      unfold exhausted
      simp only [ge_iff_le, decide_eq_true_eq]
      omega
    simp [this, h]

/-- C1: from `reset`, a call to `mutate()` returns `true` (and then increments
`current_index`) iff `current_index < num_mutations - 1` beforehand; the first
`num_mutations` calls return `true` and every further call returns `false`;
a non-fuzzable field (such as `Static`) has `num_mutations() = 0` and its
`mutate()` always returns `false`. -/
theorem mutate_protocol (n : Nat) (idx : Int) (k m : Nat) :
    ((mutateStep n idx).1 = true ↔ idx < (n : Int) - 1) ∧
    ((mutateStep n idx).1 = true → (mutateStep n idx).2 = idx + 1) ∧
    (mutateResult n k = true ↔ k < n) ∧
    numMutationsOf m false = 0 ∧
    (mutateStep (numMutationsOf m false) (-1)).1 = false := by
  refine ⟨?_, ?_, ?_, rfl, ?_⟩
  · unfold mutateStep exhausted
    by_cases h : idx ≥ (n : Int) - 1
    · simp only [ge_iff_le] at h
      simp [h]
    · simp only [ge_iff_le, not_le] at h
      simp [not_le.mpr h]
      omega
  · unfold mutateStep exhausted
    by_cases h : idx ≥ (n : Int) - 1
    · simp only [ge_iff_le] at h
      simp [h]
    · simp only [ge_iff_le, not_le] at h
      simp [not_le.mpr h]
  · rw [mutateResult_eq]; simp
  · simp [numMutationsOf, mutateStep, exhausted]

/-! ### Helper lemmas -/

theorem libMutate_fst_snd (lib : List α) (s : LibState α) :
    (libMutate lib s).1 = (mutateStep lib.length s.currentIndex).1 ∧
    (libMutate lib s).2.currentIndex = (mutateStep lib.length s.currentIndex).2 := by
  unfold libMutate mutateStep
  by_cases h : exhausted lib.length s.currentIndex
  · simp [h]
  · simp [h]

theorem libMutateN_currentIndex (lib : List α) (k : Nat) (enc : α → Bits) (dflt : α) :
    (libMutateN lib k (fieldReset enc dflt)).currentIndex = mutateRun lib.length k := by
  induction k with
  | zero => rfl
  | succ k ih =>
    rw [libMutateN, mutateRun, ← ih]
    exact (libMutate_fst_snd lib _).2

theorem filterLib_nodup [DecidableEq α] (p : α → Bool) (l : List α) :
    (filterLib p l).Nodup := by
  induction l with
  | nil => simp [filterLib]
  | cons x rest ih =>
    rw [filterLib]
    split
    · next h => exact List.nodup_cons.mpr ⟨h.2, ih⟩
    · exact ih

theorem filterLib_mem [DecidableEq α] (p : α → Bool) (l : List α) :
    ∀ x ∈ filterLib p l, p x = true := by
  induction l with
  | nil => simp [filterLib]
  | cons y rest ih =>
    intro x hx
    rw [filterLib] at hx
    split at hx
    · next h =>
      rcases List.mem_cons.mp hx with h1 | h1
      · exact h1 ▸ h.1
      · exact ih x h1
    · exact ih x hx

theorem bitsXor_length (a b : Bits) : (bitsXor a b).length = min a.length b.length := by
  simp [bitsXor]

theorem bitsXor_cancel : ∀ (a b : Bits), a.length = b.length →
    bitsXor (bitsXor a b) b = a := by
  intro a
  induction a with
  | nil =>
    intro b hb
    cases b with
    | nil => rfl
    | cons y ys => simp at hb
  | cons x xs ih =>
    intro b hb
    cases b with
    | nil => simp at hb
    | cons y ys =>
      simp only [List.length_cons, Nat.succ.injEq] at hb
      show (xor (xor x y) y) :: bitsXor (bitsXor xs ys) ys = x :: xs
      rw [ih ys hb]
      congr 1
      cases x <;> cases y <;> rfl

theorem oneHotBits_length (w i : Nat) : (oneHotBits w i).length = w := by
  simp [oneHotBits, encodeUintBE]

/-! ### Claim theorems -/

/-- C2 (counterexample): for the library-based field `Group(['a', 'b'])`,
`reset(); skip(2); render()` yields the encoded default `'a'` while
`reset(); mutate(); mutate(); render()` yields `'b'` — `_LibraryField.skip`
advances only `_current_index` and never updates `_current_value`, so the
rendered bits differ. -/
theorem skip_render_differs :
    (fieldRender strToBits
      (libSkip (groupLib [asc "a", asc "b"]) 2 (fieldReset strToBits (asc "a"))).2).1 ≠
    (fieldRender strToBits
      (libMutateN (groupLib [asc "a", asc "b"]) 2 (fieldReset strToBits (asc "a")))).1 := by
  decide

/-- C2 (amended): for a library-based field, `reset(); skip(i)` reaches the
same `current_index` as `reset()` followed by `i` calls to `mutate()` and
reports `min(i, num_mutations)` cases skipped, in O(1) without calling
`mutate`; but it leaves `_current_value` at the default, so the immediately
following `render()` returns the encoded default value rather than the bits
of mutation `i` (the rendered-bits equivalence of the claim holds only for
`i = 0`, or once the next `mutate()` refreshes the value). -/
theorem skip_index_equivalence (α : Type) (lib : List α) (enc : α → Bits)
    (dflt : α) (i : Nat) :
    (libSkip lib i (fieldReset enc dflt)).2.currentIndex =
      (libMutateN lib i (fieldReset enc dflt)).currentIndex ∧
    (libSkip lib i (fieldReset enc dflt)).1 = min i lib.length ∧
    (fieldRender enc (libSkip lib i (fieldReset enc dflt)).2).1 = enc dflt := by
  have hidx : (libMutateN lib i (fieldReset enc dflt)).currentIndex =
      (min i lib.length : Int) - 1 := by
    rw [libMutateN_currentIndex, mutateRun_eq]
  have hskip : libSkip lib i (fieldReset enc dflt) =
      (min i lib.length, ⟨-1 + (min i lib.length : Int), dflt, enc dflt⟩) := by
    unfold libSkip fieldReset exhausted
    by_cases h : (-1 : Int) ≥ (lib.length : Int) - 1
    · have hlen : lib.length = 0 := by omega
      simp only [ge_iff_le] at h
      simp only [decide_eq_true_eq, h, if_true]
      rw [Prod.ext_iff]
      constructor
      · simp [hlen]
      · show (⟨-1, dflt, enc dflt⟩ : LibState α) = _
        rw [LibState.mk.injEq]
        refine ⟨by simp [hlen], rfl, rfl⟩
    · simp only [ge_iff_le, not_le] at h
      simp only [decide_eq_true_eq, not_le.mpr h, if_false]
      rw [Prod.ext_iff]
      constructor
      · show (min (i : Int) ((lib.length : Int) - 1 - (-1))).toNat = min i lib.length
        omega
      · rw [LibState.mk.injEq]
        refine ⟨?_, rfl, rfl⟩
        omega
  rw [hskip, hidx]
  refine ⟨?_, rfl, ?_⟩
  · show (-1 : Int) + (min i lib.length : Int) = (min i lib.length : Int) - 1
    omega
  · unfold fieldRender
    split
    · rfl
    · rfl

/-- C3 (counterexample): a fuzzable `Dynamic` field of byte-length 1 that is
mutating at index 0 (state reachable by `reset(); mutate()` with default
value `'\x00'`) returns different bits from two consecutive `render()` calls
with no `mutate()` in between: `Dynamic.render` XORs `_current_rendered` in
place on every call. -/
theorem dynamic_double_render_differs :
    (dynRender 1 (dynRender 1 (⟨0, List.replicate 8 false⟩ : DynState)).2).1 ≠
    (dynRender 1 (⟨0, List.replicate 8 false⟩ : DynState)).1 := by
  decide

/-- C3 (amended): calling `render` twice without an intervening `mutate`
returns equal bits for every field using the `BaseField` rendering (library
fields included), which merely re-encodes the unchanged current value; but a
fuzzable `Dynamic` field that is currently mutating XORs its stored
rendering with the one-hot index mask on every call, so consecutive renders
alternate: the second render is the first XORed with the mask (hence differs
whenever the mask flips a bit, see the counterexample) and the third render
equals the first. -/
theorem render_idempotence_amended :
    (∀ (α : Type) (enc : α → Bits) (s : LibState α),
      (fieldRender enc (fieldRender enc s).2).1 = (fieldRender enc s).1) ∧
    (∀ (len : Nat) (s : DynState),
      s.currentRendered.length = len * 8 →
      s.currentIndex ≠ -1 →
      (dynRender len (dynRender len s).2).1 =
        bitsXor (dynRender len s).1 (oneHotBits (len * 8) s.currentIndex.toNat) ∧
      (dynRender len (dynRender len (dynRender len s).2).2).1 = (dynRender len s).1) := by
  constructor
  · intro α enc s
    unfold fieldRender
    by_cases h : s.currentIndex = -1
    · simp [h]
    · simp [h]
  · intro len s hlen hmut
    have hr1len : (bitsXor s.currentRendered
        (oneHotBits (len * 8) s.currentIndex.toNat)).length = len * 8 := by
      rw [bitsXor_length, oneHotBits_length, hlen]
      simp
    constructor
    · unfold dynRender
      simp [hmut]
    · unfold dynRender
      simp only [hmut, ne_eq, not_false_iff, if_true, reduceIte]
      rw [bitsXor_cancel _ _ (by rw [hr1len, oneHotBits_length])]

/-- C3 (amended, witness): the alternation applied to the concrete mutating
`Dynamic` state of the counterexample — the third render equals the first. -/
theorem render_idempotence_amended_witness :
    (dynRender 1 (dynRender 1 (dynRender 1 (⟨0, List.replicate 8 false⟩ : DynState)).2).2).1 =
      (dynRender 1 (⟨0, List.replicate 8 false⟩ : DynState)).1 :=
  (render_idempotence_amended.2 1 ⟨0, List.replicate 8 false⟩ (by decide) (by decide)).2

/-- C4: a non-fuzzable `Size` field of bit width `w` over a resolvable,
non-enclosing dependency renders the integer
`min(max(len(dep.render()) / 8, 0), 2^w - 1)` in `w` unsigned bits (the code
computes `min` with the backing field's max first and `max` with its min
second, which coincides since `len / 8 ≥ 0`); for a `String` dependency with
default `"hello"` and `w = 32` the default rendering is the four bytes
`00 00 00 05`. -/
theorem size_render_value (dep : Bits) (w : Nat) (_hw : 0 < w) :
    sizeRender dep w = encodeUintBE w (min (max (dep.length / 8) 0) (2 ^ w - 1)) ∧
    sizeRender (strToBits (asc "hello")) 32 = strToBits [0x00, 0x00, 0x00, 0x05] := by
  constructor
  · unfold sizeRender calculatedIntRender bitFieldEncode
    congr 1
    have h1 : (1 : Nat) ≤ 2 ^ w := Nat.one_le_two_pow
    have h2 : ((dep.length : Int)).fdiv 8 = ((dep.length / 8 : Nat) : Int) := by
      cases hL : dep.length with
      | zero => rfl
      | succ k => rfl
    rw [h2]
    have h3 : ((2 : Int) ^ w - 1) = ((2 ^ w - 1 : Nat) : Int) := by
      push_cast [h1]
      ring
    rw [h3]
    omega
  · decide

/-- C5 (code evaluated at the failing input): on the 1-bit input `0b0` the
`ByteAlignedBitsEncoder` returns the 2-bit value `0b00`, whose length is not
a multiple of 8 — the code appends `len % 8` zero bits where byte alignment
would need `8 - len % 8`; an already byte-aligned input is returned
unchanged, as the claim states. -/
theorem byte_aligned_encoder_failing :
    byteAlignedEncode [false] = [false, false] ∧
    (byteAlignedEncode [false]).length % 8 ≠ 0 ∧
    byteAlignedEncode (strToBits [0xab]) = strToBits [0xab] := by
  decide

/-- C10: rendering a `Hash` field (or any `CalculatedStr`) with a fresh
render context raises `KittyException('Hashed data should be byte aligned')`
iff the dependency's rendered bit-length is not a multiple of 8; when the
dependency is byte aligned the rendering succeeds (the digest function is
total), updating only the calculated field's own current value. -/
theorem calculated_str_error_iff (func : PyStr → PyStr) (dep : Bits) :
    isError (calculatedStrRender func dep) = true ↔ ¬ (dep.length % 8 = 0) := by
  unfold calculatedStrRender
  by_cases h : dep.length % 8 = 0
  · simp [h, isError]
  · simp [h, isError]

/-- C9: when `start()` loads a stored session whose data-model hash differs
from the current model's `hash()`, `_check_session_validity` raises before
the `try` block that contains `target.setup()`, so the error propagates with
no target interaction (no setup/pre_test/transmit event); when the hashes
are equal no hash-mismatch error is raised (only an independent
kitty-version mismatch can still abort). -/
theorem session_hash_guard (loaded : Bool) (si : SessionInfo)
    (currentVersion modelHash : Nat) (rest : List TargetEvent) :
    (loaded = true → si.dataModelHash ≠ modelHash →
      ∃ e, fuzzerStart loaded si currentVersion modelHash rest = Except.error e) ∧
    (si.dataModelHash = modelHash →
      fuzzerStart loaded si currentVersion modelHash rest ≠
        Except.error FuzzError.hashMismatch) := by
  constructor
  · intro hl hne
    subst hl
    unfold fuzzerStart checkSessionValidity
    by_cases hv : currentVersion = si.kittyVersion
    · have hh : modelHash ≠ si.dataModelHash := fun he => hne he.symm
      refine ⟨FuzzError.hashMismatch, ?_⟩
      simp [hv, hh]
    · refine ⟨FuzzError.versionMismatch, ?_⟩
      simp [hv]
  · intro heq hcontra
    unfold fuzzerStart checkSessionValidity at hcontra
    cases loaded with
    | false => simp at hcontra
    | true =>
      by_cases hv : currentVersion = si.kittyVersion
      · have hh : ¬ (modelHash ≠ si.dataModelHash) := fun hne => hne heq.symm
        simp [hv, hh] at hcontra
      · simp [hv] at hcontra

/-- C9 (witness): a loaded session with stored hash 5 against current model
hash 7 (equal versions) makes `start()` fail before any target event. -/
theorem session_hash_guard_witness :
    ∃ e, fuzzerStart true ⟨1, 5⟩ 1 7 [] = Except.error e :=
  (session_hash_guard true ⟨1, 5⟩ 1 7 []).1 rfl (by decide)

/-- C4 (witness): the theorem applied at the `"hello"` dependency with
`w = 32`. -/
theorem size_render_value_witness :
    sizeRender (strToBits (asc "hello")) 32 =
      encodeUintBE 32 (min (max ((strToBits (asc "hello")).length / 8) 0) (2 ^ 32 - 1)) :=
  (size_render_value (strToBits (asc "hello")) 32 (by decide)).1

/-- C8: for every `BitField` whose construction succeeds (`_calc_bounds`
resolves the bounds without raising), the filtered mutation library is
duplicate-free — so the values produced at distinct mutation indices are
pairwise distinct — and every value in it lies within
`[min_value, max_value]`. -/
theorem bitfield_values_valid (value : Int) (length : Nat) (signed : Bool)
    (minv maxv : Option Int) (minV maxV diff : Int)
    (_h : calcBounds value length signed minv maxv = some (minV, maxV, diff)) :
    (bitFieldValues value length minV maxV diff).Nodup ∧
    ∀ v ∈ bitFieldValues value length minV maxV diff, minV ≤ v ∧ v ≤ maxV := by
  constructor
  · exact filterLib_nodup _ _
  · intro v hv
    have := filterLib_mem (bitFieldInRange minV maxV) _ v hv
    unfold bitFieldInRange at this
    exact of_decide_eq_true this

/-- C8 (witness): the theorem applied to `BitField(value=0, length=8)`,
whose bounds resolve to `[0, 255]` with `max_min_diff = 255`. -/
theorem bitfield_values_valid_witness :
    (bitFieldValues 0 8 0 255 255).Nodup ∧
    ∀ v ∈ bitFieldValues 0 8 0 255 255, (0 : Int) ≤ v ∧ v ≤ 255 :=
  bitfield_values_valid 0 8 false none none 0 255 255 (by decide)

set_option maxRecDepth 100000 in
/-- C6 (counterexample): for `BitField(value=0, length=8)` (unsigned, no
explicit bounds), `render()` after exactly one `mutate()` is not the byte
`0x01`: the first three local bit-flip entries `1`, `2`, `4` also occur later
in the shared class library (`min_value + i` and `default_value + i`), and
`_filter_lib`'s backwards walk keeps the later duplicate, so they are
suppressed from the front of the library. -/
theorem bitfield_first_mutation_differs :
    (fieldRender (bitFieldEncode 8)
      (libMutateN (bitFieldValues 0 8 0 255 255) 1
        (fieldReset (bitFieldEncode 8) (0 : Int)))).1 ≠ strToBits [0x01] := by
  decide

set_option maxRecDepth 100000 in
/-- C6 (amended): for `BitField(value=0, length=8)` the bounds resolve to
`[0, 255]`; the default rendering is the byte `0x00`; after exactly one
`mutate()` the rendering is the byte `0x08` (the first library entry that
survives duplicate suppression is `default ^ (1 << 3) = 8`);
`num_mutations()` is `40`, and after 40 successful mutates a further
`mutate()` returns `false`. -/
theorem bitfield_8bit_scenario :
    calcBounds 0 8 false none none = some (0, 255, 255) ∧
    (fieldRender (bitFieldEncode 8) (fieldReset (bitFieldEncode 8) (0 : Int))).1 =
      strToBits [0x00] ∧
    (fieldRender (bitFieldEncode 8)
      (libMutateN (bitFieldValues 0 8 0 255 255) 1
        (fieldReset (bitFieldEncode 8) (0 : Int)))).1 = strToBits [0x08] ∧
    (bitFieldValues 0 8 0 255 255).length = 40 ∧
    (libMutate (bitFieldValues 0 8 0 255 255)
      (libMutateN (bitFieldValues 0 8 0 255 255) 40
        (fieldReset (bitFieldEncode 8) (0 : Int)))).1 = false := by
  decide

set_option maxRecDepth 1000000 in
/-- C7 (counterexample): with no `kitty_strings.txt` present, the mutation
library of `String('kitty')` does not contain the string of ten `%s`
repetitions: `gen_power_list` only produces power-of-two repetition counts
(1, 2, 4, ..., 1024), so no entry equals `"%s" * 10`. -/
theorem string_lib_no_ten_percent_s :
    pyRepeat (asc "%s") 10 ∉ stringLib (asc "kitty") [] := by
  decide

set_option maxRecDepth 1000000 in
/-- C7 (amended): for `String('kitty')` with no `max_size` and no
`kitty_strings.txt`, `render()` before any mutate yields the ASCII bytes of
`"kitty"`; the mutation at index 0 renders as `"kittykitty"` (the default
repeated twice); and the library contains the empty string, the string of
eight `%s` repetitions (`gen_power_list` yields the power-of-two repetition
counts 1, 2, 4, ..., 1024 — ten repetitions never occur), and
`"/../../../../../../../../../../../../etc/passwd"`. -/
theorem string_kitty_scenario :
    (fieldRender strToBits (fieldReset strToBits (asc "kitty"))).1 =
      strToBits (asc "kitty") ∧
    (fieldRender strToBits
      (libMutateN (stringLib (asc "kitty") []) 1
        (fieldReset strToBits (asc "kitty")))).1 = strToBits (asc "kittykitty") ∧
    ([] : PyStr) ∈ stringLib (asc "kitty") [] ∧
    pyRepeat (asc "%s") 8 ∈ stringLib (asc "kitty") [] ∧
    asc "/../../../../../../../../../../../../etc/passwd" ∈
      stringLib (asc "kitty") [] := by
  decide
